import Mathlib

/-!
Verification of the autogguf pipeline (src/main.rs): quant levels and their
imatrix requirement, model-name and artifact-path derivation, the outcome of
each external step under the select-based cancellation protocol, the
cancellation primitive, the upload worker with its busy flag, and the
shutdown sequence of main.
-/

namespace Autogguf

/-- Quant levels, from the quant level table in src/main.rs lines 132-161. -/
inductive QuantLevel
  | Q2K | Q3KS | Q3KM | Q3KL | Q4_0 | Q4_1 | Q4KS | Q4KM
  | Q5_0 | Q5_1 | Q5KS | Q5KM | Q6K | Q8_0 | BF16
  | IQ1S | IQ1M | IQ2XXS | IQ2XS | IQ2S | IQ2M | Q2KS
  | IQ3XXS | IQ3XS | IQ3S | IQ3M | IQ4XS | IQ4NL
  deriving DecidableEq, Repr

/-- Display labels of quant levels (src/main.rs lines 121-128 with the
table at lines 132-161). -/
def QuantLevel.str : QuantLevel → String
  | .Q2K => "q2_k"
  | .Q3KS => "q3_k_s"
  | .Q3KM => "q3_k_m"
  | .Q3KL => "q3_k_l"
  | .Q4_0 => "q4_0"
  | .Q4_1 => "q4_1"
  | .Q4KS => "q4_k_s"
  | .Q4KM => "q4_k_m"
  | .Q5_0 => "q5_0"
  | .Q5_1 => "q5_1"
  | .Q5KS => "q5_k_s"
  | .Q5KM => "q5_k_m"
  | .Q6K => "q6_k"
  | .Q8_0 => "q8_0"
  | .BF16 => "bf16"
  | .IQ1S => "iq1_s"
  | .IQ1M => "iq1_m"
  | .IQ2XXS => "iq2_xxs"
  | .IQ2XS => "iq2_xs"
  | .IQ2S => "iq2_s"
  | .IQ2M => "iq2_m"
  | .Q2KS => "q2_k_s"
  | .IQ3XXS => "iq3_xxs"
  | .IQ3XS => "iq3_xs"
  | .IQ3S => "iq3_s"
  | .IQ3M => "iq3_m"
  | .IQ4XS => "iq4_xs"
  | .IQ4NL => "iq4_nl"

/-- QuantLevel::requires_imatrix, src/main.rs lines 163-182. -/
def QuantLevel.requires_imatrix : QuantLevel → Bool
  | .IQ1S | .IQ1M | .IQ2XXS | .IQ2XS | .IQ2S | .IQ2M | .Q2KS
  | .IQ3XXS | .IQ3XS | .IQ3S | .IQ3M | .IQ4XS | .IQ4NL => true
  | _ => false

/-- Precision enum with its Display labels (src/main.rs lines 85-101). -/
inductive Precision
  | F16 | BF16 | F32
  deriving DecidableEq, Repr

/-- Display labels of Precision (src/main.rs lines 92-101). -/
def Precision.str : Precision → String
  | .F16 => "f16"
  | .BF16 => "bf16"
  | .F32 => "f32"

/-- Character-wise lowercasing, modelling str::to_lowercase on the ASCII
model names used by the path formatting in src/main.rs. -/
def strLower (s : String) : String := ⟨s.data.map Char.toLower⟩

/-- Character-wise uppercasing, modelling str::to_uppercase on the ASCII
quant tags used by the path formatting in src/main.rs. -/
def strUpper (s : String) : String := ⟨s.data.map Char.toUpper⟩

/-- Rust str::split over a character list: the pieces between occurrences
of sep, keeping empty pieces; splitting the empty list gives one empty
piece. -/
def rustSplit (sep : Char) : List Char → List (List Char)
  | [] => [[]]
  | c :: cs =>
    if c = sep then [] :: rustSplit sep cs
    else
      match rustSplit sep cs with
      | [] => [[c]]
      | p :: ps => (c :: p) :: ps

/-- Derivation of model_name in main, src/main.rs lines 573-580: split
model_id on the slash, take element 1 of the resulting vector, and default
to the empty string when it is absent. -/
def modelNameOf (modelId : String) : String :=
  ⟨((rustSplit '/' modelId.data)[1]?).getD []⟩

/-- Output directory: download_model runs mkdir -p model_name and the hub
download targets ./model_name (src/main.rs lines 284-298). -/
def outputDir (modelName : String) : String := modelName

/-- Full-precision artifact path when no override is given,
src/main.rs lines 592-599. -/
def fpPath (modelName : String) (p : Precision) : String :=
  modelName ++ "/" ++ strLower modelName ++ "." ++ p.str ++ ".gguf"

/-- Imatrix artifact path when no override is given,
src/main.rs lines 620-627. -/
def imatrixPath (modelName : String) : String :=
  modelName ++ "/" ++ strLower modelName ++ ".imatrix"

/-- Quantized artifact path, src/main.rs lines 435-439. -/
def quantPath (modelName : String) (q : QuantLevel) : String :=
  modelName ++ "/" ++ strLower modelName ++ "." ++ strUpper q.str ++ ".gguf"

/-- How one external step resolves, as seen by the select block that races
child wait against the cancellation notification in src/main.rs: the spawn
fails, the child exits with some status code, the wait itself fails with an
io error, or the cancellation branch wins (the kill may succeed or itself
fail). -/
inductive ChildRace
  | spawnFailed
  | exited (code : Nat)
  | waitFailed
  | canceled (killOk : Bool)
  deriving DecidableEq, Repr

/-- Errors a step can return. The code never inspects the ExitStatus value
returned by wait, so no exit-status-carrying error exists anywhere in
src/main.rs. -/
inductive StepError
  | ioFailure
  | interrupted (msg : String)
  | verifyFailed (msg : String)
  deriving DecidableEq, Repr

/-- The select block used by every step of src/main.rs, for example lines
455-463: on child exit the code discards the ExitStatus after propagating
only the io error of the wait itself, so any exit code yields Ok; on
cancellation the child is killed (a kill error propagates as an io error)
and an interrupted error with the given message is returned; a spawn
failure propagates as an io error before the select. -/
def awaitStep (msg : String) : ChildRace → Except StepError Unit
  | .spawnFailed => .error .ioFailure
  | .exited _ => .ok ()
  | .waitFailed => .error .ioFailure
  | .canceled true => .error (.interrupted msg)
  | .canceled false => .error .ioFailure

/-- update_llama_cpp, src/main.rs lines 184-276: optional clone when the
llama path does not exist, then pull, make clean, make, pip install, each
one select block with its own cancellation message. -/
def update_llama_cpp (llamaPathExists : Bool)
    (clone pull clean mk deps : ChildRace) : Except StepError Unit := do
  if llamaPathExists = false then
    awaitStep "Llama.cpp installation process cancelled" clone
  awaitStep "Llama.cpp update process cancelled" pull
  awaitStep "Llama.cpp build clean process cancelled" clean
  awaitStep "Llama.cpp build process cancelled" mk
  awaitStep "Llama.cpp build process cancelled" deps

/-- download_model, src/main.rs lines 278-316: mkdir -p is spawned and
waited with its status discarded (any spawn or wait io error propagates),
then the hub download step is raced against cancellation. -/
def download_model (mkdirOk : Bool) (dl : ChildRace) : Except StepError Unit :=
  if mkdirOk then awaitStep "Download process killed due to interrupt" dl
  else .error .ioFailure

/-- convert_fp, src/main.rs lines 318-363: run the converter raced against
cancellation, then check try_exists on the output path; a filesystem error
propagates as an io error, and a missing file returns the distinct
verification error. -/
def convert_fp (conv : ChildRace) (outputExists : Except Unit Bool) :
    Except StepError Unit := do
  awaitStep "Conversion process killed due to interrupt" conv
  match outputExists with
  | .error _ => .error .ioFailure
  | .ok false => .error (.verifyFailed "💥 Conversion failed")
  | .ok true => .ok ()

/-- generate_imatrix, src/main.rs lines 365-418: ensure the calibration
file exists (any download or file io failure propagates), run the imatrix
step raced against cancellation, then remove the calibration file (a
removal failure propagates). -/
def generate_imatrix (calibOk : Bool) (imat : ChildRace) (removeOk : Bool) :
    Except StepError Unit :=
  if calibOk = false then .error .ioFailure
  else
    match awaitStep "imatrix generation process killed due to interrupt" imat with
    | .error e => .error e
    | .ok _ => if removeOk then .ok () else .error .ioFailure

/-- Filesystem-visible commands issued by the quantize stage. -/
inductive FsEvent
  | quantizerOut (path : String)
  | mv (src : String) (dst : String)
  deriving DecidableEq, Repr

/-- quantize, src/main.rs lines 420-481: the quantizer is spawned with
output path quantPath plus the pending suffix; after its wait returns Ok
with any exit status, mv from the pending path to the final path is
spawned and waited in turn. The event list records which commands were
issued. -/
def quantize (modelName : String) (q : QuantLevel) (qRace mvRace : ChildRace) :
    Except StepError Unit × List FsEvent :=
  let qp := quantPath modelName q
  let pending := qp ++ ".pending"
  match qRace with
  | .spawnFailed => (.error .ioFailure, [])
  | qr =>
    match awaitStep "Quantization process killed due to interrupt" qr with
    | .error e => (.error e, [.quantizerOut pending])
    | .ok _ =>
      match mvRace with
      | .spawnFailed => (.error .ioFailure, [.quantizerOut pending])
      | mr =>
        match awaitStep "Quantized file rename process killed due to interrupt" mr with
        | .error e => (.error e, [.quantizerOut pending, .mv pending qp])
        | .ok _ => (.ok (), [.quantizerOut pending, .mv pending qp])

/-- upload_ggufs_to_hf, src/main.rs lines 483-522: one hub upload step
raced against cancellation; the exit status is discarded as in every other
step. -/
def upload_ggufs_to_hf (up : ChildRace) : Except StepError Unit :=
  awaitStep "Upload process killed due to interrupt" up

/-- Begin and end of one upload run performed by the worker. -/
inductive WEvent
  | uploadStart
  | uploadEnd
  deriving DecidableEq, Repr

/-- Observable outcome of a complete upload worker execution. -/
structure WorkerOut where
  runs : Nat
  finalBusy : Bool
  result : Except StepError Unit
  events : List WEvent
  deriving Repr

/-- upload_worker, src/main.rs lines 524-549, as a function of the race
outcome of each upload it starts, the busy flag value at entry, and the
number of triggers received from the channel before it closes. Each loop
iteration swaps the busy flag to true; when the previous value was false
it runs one upload and on success stores false again; an upload error
propagates out of the worker before the flag is cleared. -/
def upload_worker : (Nat → ChildRace) → Bool → Nat → WorkerOut
  | _, b, 0 => ⟨0, b, .ok (), []⟩
  | races, b, n + 1 =>
    if b then upload_worker races b n
    else
      match upload_ggufs_to_hf (races 0) with
      | .ok _ =>
        let rest := upload_worker (fun i => races (i + 1)) false n
        ⟨rest.runs + 1, rest.finalBusy, rest.result,
          WEvent.uploadStart :: WEvent.uploadEnd :: rest.events⟩
      | .error e => ⟨1, true, .error e, [WEvent.uploadStart]⟩

/-- Scan of an upload event list checking that an upload never starts
while another is in flight and every end matches a start. -/
def singleFlightFrom (inFlight : Bool) : List WEvent → Bool
  | [] => true
  | WEvent.uploadStart :: rest => !inFlight && singleFlightFrom true rest
  | WEvent.uploadEnd :: rest => inFlight && singleFlightFrom false rest

/-- State of the tokio Notify used for cancellation in src/main.rs lines
559-566: a stored permit plus the number of currently-registered waiters. -/
structure NotifyState where
  permit : Bool
  waiting : Nat
  deriving DecidableEq, Repr

/-- A fresh Notify: no permit, no waiters (src/main.rs line 559). -/
def notifyNew : NotifyState := ⟨false, 0⟩

/-- Modelled from the documented semantics of tokio Notify notify_waiters,
the call made by the ctrl-c task at src/main.rs line 565: it wakes every
waiter registered at the moment of the call, returning how many were
woken, and stores no permit for future notified calls. -/
def notify_waiters (s : NotifyState) : NotifyState × Nat :=
  (⟨s.permit, 0⟩, s.waiting)

/-- Modelled from the documented semantics of tokio Notify notified when
first awaited: it completes immediately (true) only by consuming a stored
permit; otherwise the task registers as a waiter and suspends (false). -/
def notified_begin (s : NotifyState) : NotifyState × Bool :=
  if s.permit then (⟨false, s.waiting⟩, true)
  else (⟨s.permit, s.waiting + 1⟩, false)

/-- Events of the shutdown block at the end of main. -/
inductive MEvent
  | pollBusy (observed : Bool)
  | sendFinalTrigger
  | closeQueue
  | joinWorker
  | reportSuccess
  deriving DecidableEq, Repr

/-- The busy-wait loop of src/main.rs lines 685-687 as the list of poll
events it performs, given the value the busy flag holds at each poll; the
fuel bounds how many polls are modelled, none meaning the loop is still
spinning after that many polls. -/
def pollEvents : (Nat → Bool) → Nat → Option (List MEvent)
  | _, 0 => none
  | busySeq, fuel + 1 =>
    if busySeq 0 then
      match pollEvents (fun i => busySeq (i + 1)) fuel with
      | some evs => some (MEvent.pollBusy true :: evs)
      | none => none
    else some [MEvent.pollBusy false]

/-- Lines 684-702 of src/main.rs after the quantization loop, with upload
enabled: poll busy until idle, send one final trigger, drop the sender
(closing the queue), await the worker handle, then report success; with
skip_upload set, the poll, the send and the join are all skipped. -/
def mainShutdown (skipUpload : Bool) (busySeq : Nat → Bool) (fuel : Nat) :
    Option (List MEvent) :=
  if skipUpload then some [MEvent.closeQueue, MEvent.reportSuccess]
  else
    match pollEvents busySeq fuel with
    | none => none
    | some evs =>
      some (evs ++ [MEvent.sendFinalTrigger, MEvent.closeQueue,
        MEvent.joinWorker, MEvent.reportSuccess])

/-- What main does with the joined worker result. -/
structure FinishReport where
  loggedUploadError : Bool
  removedArtifacts : Bool
  exitOk : Bool
  deriving DecidableEq, Repr

/-- Lines 691-702 of src/main.rs: the joined worker result is only matched
for logging (an Err is printed to stderr), no filesystem operation runs on
this path, and main prints done and returns Ok regardless. -/
def finishRun (workerResult : Except StepError Unit) : FinishReport :=
  match workerResult with
  | .ok _ => ⟨false, false, true⟩
  | .error _ => ⟨true, false, true⟩

/-- The imatrix stage guard, src/main.rs line 628. -/
def imatrixStageRuns (onlyUpload : Bool) (imatrixArg : Option String)
    (quants : List QuantLevel) : Bool :=
  !onlyUpload && !imatrixArg.isSome && quants.any (fun q => q.requires_imatrix)

/-- Spec claim C1 as stated: a step whose child exited with a nonzero
status returns an error. Stated on awaitStep, the select shape every step
of src/main.rs instantiates. -/
def exitNonzeroAlwaysFails : Prop :=
  ∀ (msg : String) (c : Nat), c ≠ 0 →
    awaitStep msg (ChildRace.exited c) ≠ Except.ok ()

/-- Spec claim C2 as stated: a wait begun strictly after the request
completes immediately. -/
def lateWaiterObservesRequest : Prop :=
  (notified_begin (notify_waiters notifyNew).1).2 = true

/-- Spec claim C3 as stated: a failed upload result makes the run report
overall failure at the end. -/
def uploadFailureYieldsFailureExit : Prop :=
  ∀ e, (finishRun (Except.error e)).exitOk = false

/-- Spec claim C4 as stated: the rename command is issued only when the
quantizer exited with status zero. -/
def renameOnlyAfterQuantSuccess : Prop :=
  ∀ (mn : String) (q : QuantLevel) (qr mr : ChildRace),
    FsEvent.mv (quantPath mn q ++ ".pending") (quantPath mn q)
        ∈ (quantize mn q qr mr).2 →
      qr = ChildRace.exited 0

/-- Spec claim C6 as stated, absorption half: with one trigger taken and
at least two more enqueued while the first upload is in flight, at most
one additional upload run occurs, so at most two runs in total. -/
def busyAbsorbsToOneRun : Prop :=
  ∀ (races : Nat → ChildRace) (k : Nat), 2 ≤ k →
    (upload_worker races false (1 + k)).runs ≤ 2

theorem rustSplit_no_sep (sep : Char) :
    ∀ cs : List Char, sep ∉ cs → rustSplit sep cs = [cs]
  | [], _ => rfl
  | c :: cs, h => by
    have hc : ¬c = sep := by
      intro hh
      exact h (hh ▸ List.mem_cons_self c cs)
    have ih : rustSplit sep cs = [cs] :=
      rustSplit_no_sep sep cs (fun hm => h (List.mem_cons_of_mem c hm))
    simp [rustSplit, hc, ih]

theorem pollEvents_true_none : ∀ fuel, pollEvents (fun _ => true) fuel = none
  | 0 => rfl
  | fuel + 1 => by
    simp [pollEvents, pollEvents_true_none fuel]

theorem pollEvents_some (fuel : Nat) : ∀ (busySeq : Nat → Bool) (evs : List MEvent),
    pollEvents busySeq fuel = some evs →
    ∃ k, evs = List.replicate k (MEvent.pollBusy true) ++ [MEvent.pollBusy false] ∧
      busySeq k = false := by
  induction fuel with
  | zero =>
    intro busySeq evs h
    simp [pollEvents] at h
  | succ n ih =>
    intro busySeq evs h
    by_cases hb : busySeq 0
    · rw [pollEvents, if_pos hb] at h
      cases hp : pollEvents (fun i => busySeq (i + 1)) n with
      | none => rw [hp] at h; exact absurd h (by simp)
      | some evsTail =>
        rw [hp] at h
        obtain ⟨k, hk, hkf⟩ := ih _ _ hp
        refine ⟨k + 1, ?_, hkf⟩
        have hevs : evs = MEvent.pollBusy true :: evsTail := by
          simpa using h.symm
        rw [hevs, hk]
        simp [List.replicate_succ]
    · rw [pollEvents, if_neg hb] at h
      refine ⟨0, ?_, by simpa using hb⟩
      simpa using h.symm

theorem upload_worker_singleFlight :
    ∀ (n : Nat) (races : Nat → ChildRace) (b : Bool),
      singleFlightFrom false (upload_worker races b n).events = true
  | 0, _, _ => rfl
  | n + 1, races, b => by
    cases b with
    | true =>
      simpa [upload_worker] using upload_worker_singleFlight n races true
    | false =>
      cases hu : upload_ggufs_to_hf (races 0) with
      | ok u =>
        have ih := upload_worker_singleFlight n (fun i => races (i + 1)) false
        simpa [upload_worker, hu, singleFlightFrom] using ih
      | error e =>
        simp [upload_worker, hu, singleFlightFrom]

theorem upload_worker_runs_all_ok :
    ∀ n : Nat, (upload_worker (fun _ => ChildRace.exited 0) false n).runs = n
  | 0 => rfl
  | n + 1 => by
    have ih := upload_worker_runs_all_ok n
    simpa [upload_worker, upload_ggufs_to_hf, awaitStep] using ih

theorem upload_worker_ok_runs : ∀ (n : Nat) (races : Nat → ChildRace),
    (upload_worker races false n).result = Except.ok () →
    (upload_worker races false n).runs = n
  | 0, _, _ => rfl
  | n + 1, races, h => by
    cases hu : upload_ggufs_to_hf (races 0) with
    | ok u =>
      have hres : (upload_worker races false (n + 1)).result
          = (upload_worker (fun i => races (i + 1)) false n).result := by
        simp [upload_worker, hu]
      have ih := upload_worker_ok_runs n (fun i => races (i + 1))
        (by rw [← hres]; exact h)
      simp [upload_worker, hu, ih]
    | error e =>
      exfalso
      have hres : (upload_worker races false (n + 1)).result = Except.error e := by
        simp [upload_worker, hu]
      rw [hres] at h
      exact Except.noConfusion h

/-- C1 counterexample: the claim that a nonzero exit status yields an
exit-failure error is false: the select arm discards the exit status, so
the step returns Ok even for exit code 1. -/
theorem C1_counterexample : ¬ exitNonzeroAlwaysFails := by
  intro h
  exact h "m" 1 one_ne_zero rfl

/-- C1 amended: a step outcome never depends on the exit status of the
child: every exit yields Ok for each stage function, and errors arise only
from spawn or wait io failures or from cancellation. -/
theorem C1_amended (msg : String) (c c1 c2 c3 c4 c5 : Nat) (pe : Bool) :
    awaitStep msg (ChildRace.exited c) = Except.ok () ∧
    awaitStep msg ChildRace.spawnFailed = Except.error StepError.ioFailure ∧
    awaitStep msg ChildRace.waitFailed = Except.error StepError.ioFailure ∧
    awaitStep msg (ChildRace.canceled true) = Except.error (StepError.interrupted msg) ∧
    awaitStep msg (ChildRace.canceled false) = Except.error StepError.ioFailure ∧
    update_llama_cpp pe (ChildRace.exited c1) (ChildRace.exited c2)
      (ChildRace.exited c3) (ChildRace.exited c4) (ChildRace.exited c5) = Except.ok () ∧
    download_model true (ChildRace.exited c1) = Except.ok () ∧
    convert_fp (ChildRace.exited c1) (Except.ok true) = Except.ok () ∧
    generate_imatrix true (ChildRace.exited c1) true = Except.ok () ∧
    (quantize "m" QuantLevel.Q4_0 (ChildRace.exited c1) (ChildRace.exited c2)).1
      = Except.ok () ∧
    upload_ggufs_to_hf (ChildRace.exited c1) = Except.ok () := by
  refine ⟨rfl, rfl, rfl, rfl, rfl, ?_, rfl, rfl, rfl, rfl, rfl⟩
  cases pe <;> rfl

/-- C2 counterexample: the claim that a wait begun after the cancellation
request completes immediately is false: notify_waiters stores no permit,
so a later notified call registers as a waiter and suspends. -/
theorem C2_counterexample : ¬ lateWaiterObservesRequest := by
  unfold lateWaiterObservesRequest notified_begin notify_waiters notifyNew
  decide

/-- C2 amended: notify_waiters wakes exactly the waiters registered at the
moment of the call and leaves the permit unchanged, so on the fresh Notify
of main a wait begun strictly after the request registers as a waiter and
suspends instead of completing immediately. -/
theorem C2_amended (s : NotifyState) :
    (notify_waiters s).2 = s.waiting ∧
    (notify_waiters s).1.permit = s.permit ∧
    notified_begin (notify_waiters notifyNew).1 = (⟨false, 1⟩, false) := by
  exact ⟨rfl, rfl, rfl⟩

/-- C3 counterexample: the claim that an upload failure makes the run
report overall failure is false: main logs the error and still exits Ok. -/
theorem C3_counterexample : ¬ uploadFailureYieldsFailureExit := by
  intro h
  have hh := h StepError.ioFailure
  simp [finishRun] at hh

/-- C3 amended: when the worker result is an error at the final join, main
logs it, removes no artifact, and still exits Ok; and when the upload
failed while quantization was still running, the busy flag is stuck true,
so the shutdown poll loop never terminates and the final report is never
reached. -/
theorem C3_amended (e : StepError) (fuel : Nat) :
    finishRun (Except.error e) = ⟨true, false, true⟩ ∧
    pollEvents (fun _ => true) fuel = none :=
  ⟨rfl, pollEvents_true_none fuel⟩

/-- C4 counterexample: the claim that the rename is issued only after a
successful quantizer exit is false: after an exit with status 1 the mv to
the final name still runs. -/
theorem C4_counterexample : ¬ renameOnlyAfterQuantSuccess := by
  intro h
  have hm : FsEvent.mv (quantPath "m" QuantLevel.Q4_0 ++ ".pending")
      (quantPath "m" QuantLevel.Q4_0)
      ∈ (quantize "m" QuantLevel.Q4_0 (ChildRace.exited 1) (ChildRace.exited 0)).2 := by
    simp [quantize, awaitStep]
  have hq := h "m" QuantLevel.Q4_0 (ChildRace.exited 1) (ChildRace.exited 0) hm
  exact absurd hq (by decide)

/-- C4 amended: the quantizer output argument is the final path with the
pending suffix, and the mv to the final name is issued whenever the
quantizer wait returns Ok, for any exit status, so a failing quantizer run
still has its pending file renamed into the final name. -/
theorem C4_amended (mn : String) (q : QuantLevel) (c c' : Nat) :
    (quantize mn q (ChildRace.exited c) (ChildRace.exited c')).2 =
      [FsEvent.quantizerOut (quantPath mn q ++ ".pending"),
       FsEvent.mv (quantPath mn q ++ ".pending") (quantPath mn q)] ∧
    (quantize mn q (ChildRace.exited c) (ChildRace.exited c')).1 = Except.ok () ∧
    (quantize mn q ChildRace.spawnFailed (ChildRace.exited c')).2 = [] :=
  ⟨rfl, rfl, rfl⟩

/-- C5: the shutdown protocol of main: the produced event list is some
polls observing busy, one poll observing idle, then exactly one final
trigger, the queue close, the worker join, and the success report, in that
order; and a worker that returns Ok has run one upload per received
trigger, so it never terminated cleanly with a received trigger
unprocessed. -/
theorem C5_shutdown (busySeq : Nat → Bool) (fuel : Nat) (evs : List MEvent)
    (races : Nat → ChildRace) (n : Nat)
    (h : mainShutdown false busySeq fuel = some evs) :
    (∃ k, evs = List.replicate k (MEvent.pollBusy true) ++
        [MEvent.pollBusy false, MEvent.sendFinalTrigger, MEvent.closeQueue,
         MEvent.joinWorker, MEvent.reportSuccess] ∧ busySeq k = false) ∧
    evs.count MEvent.sendFinalTrigger = 1 ∧
    ((upload_worker races false n).result = Except.ok () →
      (upload_worker races false n).runs = n) := by
  have hstruct : ∃ k, evs = List.replicate k (MEvent.pollBusy true) ++
      [MEvent.pollBusy false, MEvent.sendFinalTrigger, MEvent.closeQueue,
       MEvent.joinWorker, MEvent.reportSuccess] ∧ busySeq k = false := by
    rw [mainShutdown, if_neg (by simp)] at h
    cases hp : pollEvents busySeq fuel with
    | none => rw [hp] at h; exact absurd h (by simp)
    | some evsPoll =>
      rw [hp] at h
      obtain ⟨k, hk, hkf⟩ := pollEvents_some fuel busySeq evsPoll hp
      refine ⟨k, ?_, hkf⟩
      have hevs : evs = evsPoll ++ [MEvent.sendFinalTrigger, MEvent.closeQueue,
          MEvent.joinWorker, MEvent.reportSuccess] := by
        simpa using h.symm
      rw [hevs, hk]
      simp
  refine ⟨hstruct, ?_, upload_worker_ok_runs n races⟩
  obtain ⟨k, hk, _⟩ := hstruct
  rw [hk]
  simp [List.count_append, List.count_replicate, List.count_cons]

/-- C5 witness: a concrete shutdown run with the flag already idle and a
worker that received two triggers. -/
theorem C5_shutdown_witness :
    (∃ k, [MEvent.pollBusy false, MEvent.sendFinalTrigger, MEvent.closeQueue,
        MEvent.joinWorker, MEvent.reportSuccess] =
        List.replicate k (MEvent.pollBusy true) ++
        [MEvent.pollBusy false, MEvent.sendFinalTrigger, MEvent.closeQueue,
         MEvent.joinWorker, MEvent.reportSuccess] ∧ (fun _ => false) k = false) ∧
    List.count MEvent.sendFinalTrigger
      [MEvent.pollBusy false, MEvent.sendFinalTrigger, MEvent.closeQueue,
       MEvent.joinWorker, MEvent.reportSuccess] = 1 ∧
    ((upload_worker (fun _ => ChildRace.exited 0) false 2).result = Except.ok () →
      (upload_worker (fun _ => ChildRace.exited 0) false 2).runs = 2) :=
  C5_shutdown (fun _ => false) 1 _ (fun _ => ChildRace.exited 0) 2 rfl

/-- C6 counterexample: the absorption half of the claim is false: triggers
enqueued while the worker is busy each get their own upload run once the
worker frees up, so four received triggers give four runs, not at most
two. -/
theorem C6_counterexample : ¬ busyAbsorbsToOneRun := by
  intro h
  exact absurd (h (fun _ => ChildRace.exited 0) 3 (by decide)) (by decide)

/-- C6 amended: no two upload runs ever overlap, since the worker awaits
each upload before receiving again; but no absorption happens either: with
the busy flag initially clear and all uploads succeeding, every received
trigger gets its own upload run. -/
theorem C6_amended (races : Nat → ChildRace) (b : Bool) (n : Nat) :
    singleFlightFrom false (upload_worker races b n).events = true ∧
    (upload_worker (fun _ => ChildRace.exited 0) false n).runs = n :=
  ⟨upload_worker_singleFlight n races b, upload_worker_runs_all_ok n⟩

/-- C7: after the converter child exits, convert_fp checks the output
file: a missing file returns the verification error, which is a different
value from the io and interrupted errors, and the stage never returns Ok
with the file absent. -/
theorem C7_verification (c : Nat) (msg : String) :
    convert_fp (ChildRace.exited c) (Except.ok false) =
      Except.error (StepError.verifyFailed "💥 Conversion failed") ∧
    StepError.verifyFailed "💥 Conversion failed" ≠ StepError.ioFailure ∧
    StepError.verifyFailed "💥 Conversion failed" ≠ StepError.interrupted msg ∧
    convert_fp (ChildRace.exited c) (Except.ok false) ≠ Except.ok () := by
  refine ⟨rfl, by decide, ?_, ?_⟩
  · intro hcontra
    exact StepError.noConfusion hcontra
  · intro hcontra
    exact Except.noConfusion hcontra

/-- C8: the imatrix stage guard holds exactly when no imatrix path
argument was supplied, some requested level requires an imatrix, and
only-upload mode is off. -/
theorem C8_imatrix_guard (onlyUpload : Bool) (imatrixArg : Option String)
    (quants : List QuantLevel) :
    imatrixStageRuns onlyUpload imatrixArg quants = true ↔
      (imatrixArg = none ∧ (∃ q ∈ quants, q.requires_imatrix = true) ∧
        onlyUpload = false) := by
  cases imatrixArg <;> cases onlyUpload <;>
    simp [imatrixStageRuns, List.any_eq_true]

/-- C9: a model id containing no slash yields the empty short name, and
every artifact path is then the one built from the empty name. -/
theorem C9_empty_name (modelId : String) (p : Precision) (q : QuantLevel)
    (h : ('/' : Char) ∉ modelId.data) :
    modelNameOf modelId = "" ∧
    outputDir (modelNameOf modelId) = outputDir "" ∧
    fpPath (modelNameOf modelId) p = fpPath "" p ∧
    imatrixPath (modelNameOf modelId) = imatrixPath "" ∧
    quantPath (modelNameOf modelId) q = quantPath "" q := by
  have h1 : modelNameOf modelId = "" := by
    unfold modelNameOf
    rw [rustSplit_no_sep _ _ h]
    rfl
  exact ⟨h1, by rw [h1], by rw [h1], by rw [h1], by rw [h1]⟩

/-- C9 witness at the slashless model id mistral. -/
theorem C9_empty_name_witness :
    modelNameOf "mistral" = "" ∧
    outputDir (modelNameOf "mistral") = outputDir "" ∧
    fpPath (modelNameOf "mistral") Precision.F16 = fpPath "" Precision.F16 ∧
    imatrixPath (modelNameOf "mistral") = imatrixPath "" ∧
    quantPath (modelNameOf "mistral") QuantLevel.Q4_0 = quantPath "" QuantLevel.Q4_0 :=
  C9_empty_name "mistral" Precision.F16 QuantLevel.Q4_0 (by decide)

/-- C10: an upload error makes the worker return before clearing the busy
flag: exactly one run happened, the flag is left true, the worker result
is that error, and the shutdown poll over a flag that stays true never
observes idle. -/
theorem C10_stuck_busy (races : Nat → ChildRace) (n fuel : Nat) (e : StepError)
    (h : upload_ggufs_to_hf (races 0) = Except.error e) :
    (upload_worker races false (n + 1)).finalBusy = true ∧
    (upload_worker races false (n + 1)).result = Except.error e ∧
    (upload_worker races false (n + 1)).runs = 1 ∧
    pollEvents (fun _ => true) fuel = none := by
  refine ⟨?_, ?_, ?_, pollEvents_true_none fuel⟩ <;> simp [upload_worker, h]

/-- C10 witness: a failing upload wait at the first trigger. -/
theorem C10_stuck_busy_witness :
    (upload_worker (fun _ => ChildRace.waitFailed) false 1).finalBusy = true ∧
    (upload_worker (fun _ => ChildRace.waitFailed) false 1).result =
      Except.error StepError.ioFailure ∧
    (upload_worker (fun _ => ChildRace.waitFailed) false 1).runs = 1 ∧
    pollEvents (fun _ => true) 3 = none :=
  C10_stuck_busy (fun _ => ChildRace.waitFailed) 0 3 StepError.ioFailure rfl

end Autogguf
